import Mathlib

/-!
Anchor lexer: a shallow embedding of `src/lexer/lexer.cpp`.

The C++ class `Lexer` is embedded as a record of its four fields and each
member function as a function on that record.

* `std::string_view source` is a `List Char`, one `Char` per byte.
* `size_t` is taken to be 64 bits wide and `uint32_t` 32 bits wide; sums and
  differences of cursor values are reduced modulo `2 ^ 64`, `line++` modulo
  `2 ^ 32`.
* `source[i]` is a checked read: an index at or beyond the length of the
  buffer gives `Fault.outOfBounds i` (undefined behaviour in C++).
* `source.substr(pos, n)` with `pos` beyond the length gives
  `Fault.outOfRange` (the C++ function throws `std::out_of_range`).
* every `while` loop takes a fuel argument, one unit per test of the loop
  condition; a loop that is still running when the fuel is spent gives
  `Fault.outOfFuel`.
* `isalpha`, `isdigit`, `isalnum` are those of the "C" locale.
-/

namespace Anchor

/-- The enumeration `TokenKind`, in the order of the source. -/
inductive TokenKind where
  | Identifier
  | Number
  | Plus | Minus | Mul | Pow | Div | Modulo
  | PlusAssign | MinusAssign | MulAssign | PowAssign | DivAssign | ModuloAssign
  | GreaterThan | LesserThan | GreaterThanEqual | LesserThanEqual | Equal
  | Ampersand | Caret
  | At | Hashtag
  | ExclamationMark | QuestionMark
  | Assign
  | LeftArrow
  | RightArrow
  | FatArrow
  | Comma | Dot | DoubleDot | TripleDot | SemiColon | Colon | DoubleColon
  | SingleQuote
  | DoubleQuote
  | LParen | RParen
  | LBracket | RBracket
  | LBrace | RBrace
  | EOFToken
  | Unknown
  | Newline
  | ErrorToken
  | FnKw | StructKw | UnionKw | EnumKw | TraitKw | VarKw | ValKw
  | IfKw | ElseKw | IsKw | ThenKw
  | WhileKw | ForKw | InKw | DoKw | LoopKw
  | ReturnKw | DeferKw | CatchKw
  | TrueKw | FalseKw | NullKw
  | AndKw | OrKw | NotKw | XorKw | NorKw
  | ImportKw | FromKw | AsKw | AllKw
  | StringLiteral | NumberLiteral
  deriving DecidableEq, Repr

/-- The struct `Token`: kind, lexeme (a view, here the characters viewed) and line. -/
structure Token where
  kind : TokenKind
  lexeme : List Char
  line : Nat
  deriving DecidableEq, Repr

/-- The data members of class `Lexer`. -/
structure Lexer where
  source : List Char
  start : Nat
  current : Nat
  line : Nat
  deriving DecidableEq, Repr

/-- What a call can end in other than a returned value. -/
inductive Fault where
  | outOfBounds (index : Nat)
  | outOfRange
  | outOfFuel
  deriving DecidableEq, Repr

/-- Number of values of `size_t`. -/
def sizeModulus : Nat := 2 ^ 64

/-- Number of values of `uint32_t`. -/
def lineModulus : Nat := 2 ^ 32

/-- The constructor `Lexer(source)`: `start = 0`, `current = 0`, `line = 1`. -/
def Lexer.new (source : List Char) : Lexer :=
  { source := source, start := 0, current := 0, line := 1 }

/-- The function `std::isalpha` on an `int`, "C" locale. -/
def isalpha (n : Nat) : Bool := (65 ≤ n && n ≤ 90) || (97 ≤ n && n ≤ 122)

/-- The function `std::isdigit` on an `int`. -/
def isdigit (n : Nat) : Bool := 48 ≤ n && n ≤ 57

/-- The function `std::isalnum` on an `int`. -/
def isalnum (n : Nat) : Bool := isalpha n || isdigit n

/-- The checked read `source[i]`. -/
def readAt (source : List Char) (i : Nat) : Except Fault Char :=
  match source.get? i with
  | some c => .ok c
  | none => .error (.outOfBounds i)

/-- The call `source.substr(pos, n)`. -/
def substr (source : List Char) (pos n : Nat) : Except Fault (List Char) :=
  if pos > source.length then .error .outOfRange else .ok ((source.drop pos).take n)

/-- The member `is_at_end`: `current >= source.length()`. -/
def Lexer.is_at_end (lx : Lexer) : Bool := decide (lx.current ≥ lx.source.length)

/-- The member `advance`: `return source[current + advance_by];`. It assigns nothing. -/
def Lexer.advance (lx : Lexer) (advance_by : Nat) : Except Fault Char :=
  readAt lx.source ((lx.current + advance_by) % sizeModulus)

/-- The member `peek`: `is_at_end() ? 0 : source[current]`. -/
def Lexer.peek (lx : Lexer) : Except Fault Char :=
  if lx.is_at_end then .ok (Char.ofNat 0) else readAt lx.source lx.current

/-- The member `peek_forwards`: `is_at_end() ? 0 : source[current + peek_by]`. -/
def Lexer.peek_forwards (lx : Lexer) (peek_by : Nat) : Except Fault Char :=
  if lx.is_at_end then .ok (Char.ofNat 0)
  else readAt lx.source ((lx.current + peek_by) % sizeModulus)

/-- The member `make_token`: `Token{kind, source.substr(start, current - start), line}`,
with the member `start` and an unsigned difference. -/
def Lexer.make_token (lx : Lexer) (kind : TokenKind) : Except Fault Token :=
  match substr lx.source lx.start ((lx.current + sizeModulus - lx.start) % sizeModulus) with
  | .ok s => .ok { kind := kind, lexeme := s, line := lx.line }
  | .error e => .error e

/-- The member `error_token`: `Token{ErrorToken, message, line}`. -/
def Lexer.error_token (lx : Lexer) (message : List Char) : Token :=
  { kind := .ErrorToken, lexeme := message, line := lx.line }

/-- The statement `line++`. -/
def Lexer.incLine (lx : Lexer) : Lexer :=
  { lx with line := (lx.line + 1) % lineModulus }

/-- The statement `return make_token(kind);` of `scanToken`: the token and the
state the call leaves. -/
def Lexer.emit (lx : Lexer) (kind : TokenKind) : Except Fault (Token × Lexer) :=
  match lx.make_token kind with
  | .ok t => .ok (t, lx)
  | .error e => .error e

/-- The whitespace loop at the head of `scanToken` (lines 85-95). -/
def skipWhitespace : Nat → Lexer → Except Fault Lexer
  | 0, _ => .error .outOfFuel
  | fuel + 1, lx =>
    if lx.is_at_end then .ok lx
    else
      match lx.peek with
      | .error e => .error e
      | .ok c =>
        if c = ' ' ∨ c = '\r' ∨ c = '\t' then
          match lx.advance 1 with
          | .error e => .error e
          | .ok _ => skipWhitespace fuel lx
        else if c = '\n' then
          match lx.incLine.advance 1 with
          | .error e => .error e
          | .ok _ => skipWhitespace fuel lx.incLine
        else .ok lx

/-- The loop `while (isalnum(peek())) advance();` (line 105). -/
def identLoop : Nat → Lexer → Except Fault Unit
  | 0, _ => .error .outOfFuel
  | fuel + 1, lx =>
    match lx.peek with
    | .error e => .error e
    | .ok c =>
      if isalnum c.toNat then
        match lx.advance 1 with
        | .error e => .error e
        | .ok _ => identLoop fuel lx
      else .ok ()

/-- The loop `while (isdigit(peek())) advance();` (line 362). -/
def digitLoop : Nat → Lexer → Except Fault Unit
  | 0, _ => .error .outOfFuel
  | fuel + 1, lx =>
    match lx.peek with
    | .error e => .error e
    | .ok c =>
      if isdigit c.toNat then
        match lx.advance 1 with
        | .error e => .error e
        | .ok _ => digitLoop fuel lx
      else .ok ()

/-- The loop of the string branch (lines 311-314):
`while (peek() != '"' && !is_at_end()) { if (peek() == '\n') line++; advance(); }`. -/
def stringLoop : Nat → Lexer → Except Fault Lexer
  | 0, _ => .error .outOfFuel
  | fuel + 1, lx =>
    match lx.peek with
    | .error e => .error e
    | .ok c =>
      if c ≠ '"' ∧ lx.is_at_end = false then
        match lx.peek with
        | .error e => .error e
        | .ok d =>
          let lx1 := if d = '\n' then lx.incLine else lx
          match lx1.advance 1 with
          | .error e => .error e
          | .ok _ => stringLoop fuel lx1
      else .ok lx

/-- A conjunction `a && b && ...` of C++ conditions, evaluated left to right and
stopping at the first false one. -/
def condAll : List (Except Fault Bool) → Except Fault Bool
  | [] => .ok true
  | c :: cs =>
    match c with
    | .error e => .error e
    | .ok false => .ok false
    | .ok true => condAll cs

/-- The condition `current == ch`: the cursor index compared with a character code. -/
def Lexer.curIs (lx : Lexer) (ch : Char) : Except Fault Bool :=
  .ok (decide (lx.current = ch.toNat))

/-- The condition `peek_forwards(k) == ch`. -/
def Lexer.aheadIs (lx : Lexer) (k : Nat) (ch : Char) : Except Fault Bool :=
  match lx.peek_forwards k with
  | .ok c => .ok (decide (c = ch))
  | .error e => .error e

/-- The condition `peek() == ch`. -/
def Lexer.peekIs (lx : Lexer) (ch : Char) : Except Fault Bool :=
  match lx.peek with
  | .ok c => .ok (decide (c = ch))
  | .error e => .error e

/-- One statement `if (conds) { advance(n); return make_token(kind); }` followed by
the statements `rest`. -/
def Lexer.branch (lx : Lexer) (conds : List (Except Fault Bool)) (n : Nat)
    (kind : TokenKind) (rest : Except Fault (Token × Lexer)) : Except Fault (Token × Lexer) :=
  match condAll conds with
  | .error e => .error e
  | .ok true =>
    match lx.advance n with
    | .error e => .error e
    | .ok _ => lx.emit kind
  | .ok false => rest

/-- The message of the unterminated-string error token. -/
def unterminatedMessage : List Char := "Unterminated string.".toList

/-- The string-literal branch (lines 309-318), followed by the statements `rest`. -/
def stringBranch (fuel : Nat) (lx : Lexer) (rest : Except Fault (Token × Lexer)) :
    Except Fault (Token × Lexer) :=
  if lx.current = ('"').toNat then
    match lx.advance 1 with
    | .error e => .error e
    | .ok _ =>
      match stringLoop fuel lx with
      | .error e => .error e
      | .ok lx1 =>
        if lx1.is_at_end then .ok (lx1.error_token unterminatedMessage, lx1)
        else
          match lx1.advance 1 with
          | .error e => .error e
          | .ok _ => lx1.emit .StringLiteral
  else rest

/-- The statements of the block `if (std::isalpha(current)) { ... }` that follow the
inner identifier branch (lines 109-318), in source order, followed by `rest`. -/
def keywordChain (fuel : Nat) (lx : Lexer) (rest : Except Fault (Token × Lexer)) :
    Except Fault (Token × Lexer) :=
  lx.branch [lx.curIs 's', lx.aheadIs 1 't', lx.aheadIs 2 'r', lx.aheadIs 3 'u',
    lx.aheadIs 4 'c', lx.aheadIs 5 't'] 6 .StructKw <|
  lx.branch [lx.curIs 'e', lx.aheadIs 1 'n', lx.aheadIs 2 'u', lx.aheadIs 3 'm'] 4 .EnumKw <|
  lx.branch [lx.curIs 'u', lx.aheadIs 1 'n', lx.aheadIs 2 'i', lx.aheadIs 3 'o',
    lx.aheadIs 4 'n'] 5 .UnionKw <|
  lx.branch [lx.curIs 'v', lx.aheadIs 1 'a', lx.aheadIs 2 'r'] 3 .VarKw <|
  lx.branch [lx.curIs 'v', lx.aheadIs 1 'a', lx.aheadIs 2 'l'] 3 .ValKw <|
  lx.branch [lx.curIs 'f', lx.aheadIs 1 'n'] 2 .FnKw <|
  lx.branch [lx.curIs 'i', lx.aheadIs 1 'f'] 2 .IfKw <|
  lx.branch [lx.curIs 'e', lx.aheadIs 1 'l', lx.aheadIs 2 's', lx.aheadIs 3 'e'] 4 .ElseKw <|
  lx.branch [lx.curIs 'i', lx.aheadIs 1 's'] 2 .IsKw <|
  lx.branch [lx.curIs 't', lx.aheadIs 1 'h', lx.aheadIs 2 'e', lx.aheadIs 3 'n'] 4 .ThenKw <|
  lx.branch [lx.curIs 'd', lx.aheadIs 1 'o'] 2 .DoKw <|
  lx.branch [lx.curIs 'w', lx.aheadIs 1 'h', lx.aheadIs 2 'i', lx.aheadIs 3 'l',
    lx.aheadIs 4 'e'] 5 .WhileKw <|
  lx.branch [lx.curIs 'f', lx.aheadIs 1 'o', lx.aheadIs 2 'r'] 3 .ForKw <|
  lx.branch [lx.curIs 'i', lx.aheadIs 1 'n'] 2 .InKw <|
  lx.branch [lx.curIs 'l', lx.aheadIs 1 'o', lx.aheadIs 2 'o', lx.aheadIs 3 'p'] 4 .LoopKw <|
  lx.branch [lx.curIs 'r', lx.aheadIs 1 'e', lx.aheadIs 2 't', lx.aheadIs 3 'u',
    lx.aheadIs 4 'r', lx.aheadIs 5 'n'] 6 .ReturnKw <|
  lx.branch [lx.curIs 'd', lx.aheadIs 1 'e', lx.aheadIs 2 'f', lx.aheadIs 3 'e',
    lx.aheadIs 4 'r'] 5 .DeferKw <|
  lx.branch [lx.curIs 'c', lx.aheadIs 1 'a', lx.aheadIs 2 't', lx.aheadIs 3 'c',
    lx.aheadIs 4 'h'] 5 .CatchKw <|
  lx.branch [lx.curIs 'n', lx.aheadIs 1 'u', lx.aheadIs 2 'l', lx.aheadIs 3 'l'] 4 .NullKw <|
  lx.branch [lx.curIs 't', lx.aheadIs 1 'r', lx.aheadIs 2 'u', lx.aheadIs 3 'e'] 4 .TrueKw <|
  lx.branch [lx.curIs 'f', lx.aheadIs 1 'a', lx.aheadIs 2 'l', lx.aheadIs 3 's',
    lx.aheadIs 4 'e'] 5 .FalseKw <|
  lx.branch [lx.curIs '.', lx.aheadIs 1 '.'] 2 .DoubleDot <|
  lx.branch [lx.curIs '.', lx.aheadIs 1 '.', lx.aheadIs 2 '.'] 3 .TripleDot <|
  lx.branch [lx.curIs ':', lx.aheadIs 1 ':'] 2 .DoubleColon <|
  lx.branch [lx.curIs '<', lx.aheadIs 1 '-'] 2 .LeftArrow <|
  lx.branch [lx.curIs '-', lx.aheadIs 1 '>'] 2 .RightArrow <|
  lx.branch [lx.curIs '>', lx.aheadIs 1 '='] 2 .FatArrow <|
  lx.branch [lx.curIs '*', lx.aheadIs 1 '*'] 2 .Pow <|
  lx.branch [lx.curIs '>', lx.aheadIs 1 '='] 2 .GreaterThanEqual <|
  lx.branch [lx.curIs '<', lx.aheadIs 1 '='] 2 .LesserThanEqual <|
  lx.branch [lx.curIs '=', lx.aheadIs 1 '='] 2 .Equal <|
  lx.branch [lx.curIs '+', lx.aheadIs 1 '='] 2 .PlusAssign <|
  lx.branch [lx.curIs '-', lx.aheadIs 1 '='] 2 .MinusAssign <|
  lx.branch [lx.curIs '*', lx.aheadIs 1 '='] 2 .MulAssign <|
  lx.branch [lx.curIs '/', lx.aheadIs 1 '='] 2 .DivAssign <|
  lx.branch [lx.curIs '%', lx.aheadIs 1 '='] 2 .ModuloAssign <|
  lx.branch [lx.curIs '*', lx.aheadIs 1 '*'] 2 .PowAssign <|
  lx.branch [lx.curIs '\n'] 1 .Newline <|
  stringBranch fuel lx rest

/-- The block `if (std::isalpha(current)) { ... }` once its guard holds
(lines 104-318): the inner identifier branch under the same guard, then the
keyword, operator, newline and string statements, then `rest`. -/
def keywordBlock (fuel : Nat) (lx : Lexer) (rest : Except Fault (Token × Lexer)) :
    Except Fault (Token × Lexer) :=
  if isalpha lx.current then
    match identLoop fuel lx with
    | .error e => .error e
    | .ok _ => lx.emit .Identifier
  else keywordChain fuel lx rest

/-- The cases of `switch (c)` (lines 326-359), in source order: the character of
each `case` label and the kind its `return make_token(...)` names. -/
def switchTable : List (Char × TokenKind) :=
  [('\x7b', .LBrace), ('\x7d', .RBrace), ('(', .LParen), (')', .RParen),
   ('[', .LBracket), (']', .RBracket), ('"', .DoubleQuote), (Char.ofNat 39, .SingleQuote),
   ('!', .ExclamationMark), ('?', .QuestionMark), ('&', .Ampersand), ('^', .Caret),
   (',', .Comma), ('.', .Dot), (':', .Colon), (';', .SemiColon),
   ('/', .Div), ('*', .Mul), ('+', .Plus), ('-', .Minus), ('%', .Modulo),
   ('>', .GreaterThan), ('<', .LesserThan),
   ('@', .At), ('#', .Hashtag), ('=', .Assign)]

/-- The case that `switch (c)` selects, if any. -/
def switchKind (c : Char) : Option TokenKind := switchTable.lookup c

/-- The statements of `scanToken` from `char c = advance();` to the end
(lines 323-367): the switch, the numeric branch, the final `Unknown`. -/
def scanSymbol (fuel : Nat) (lx : Lexer) : Except Fault (Token × Lexer) :=
  match lx.advance 1 with
  | .error e => .error e
  | .ok c =>
    match switchKind c with
    | some kind =>
      match lx.advance 1 with
      | .error e => .error e
      | .ok _ => lx.emit kind
    | none =>
      if isdigit c.toNat then
        match digitLoop fuel lx with
        | .error e => .error e
        | .ok _ => lx.emit .Number
      else lx.emit .Unknown

/-- The member `scanToken` (lines 83-368). The local `size_t start = current;` of
line 97 is a new variable that nothing reads, so it has no counterpart here. -/
def scanToken (fuel : Nat) (lx0 : Lexer) : Except Fault (Token × Lexer) :=
  match skipWhitespace fuel lx0 with
  | .error e => .error e
  | .ok lx =>
    if lx.is_at_end then lx.emit .EOFToken
    else if isalpha lx.current then keywordBlock fuel lx (scanSymbol fuel lx)
    else scanSymbol fuel lx

/-- A caller that makes `n` successive calls of `scanToken` on one `Lexer` and
collects the tokens. -/
def scanTokens (fuel : Nat) : Nat → Lexer → Except Fault (List Token × Lexer)
  | 0, lx => .ok ([], lx)
  | n + 1, lx =>
    match scanToken fuel lx with
    | .error e => .error e
    | .ok (t, lx1) =>
      match scanTokens fuel n lx1 with
      | .error e => .error e
      | .ok (ts, lx2) => .ok (t :: ts, lx2)

/-- The states a `Lexer` can be in after any number of calls of `scanToken` that
returned, starting from `lx0`. -/
inductive Reach (lx0 : Lexer) : Lexer → Prop where
  | refl : Reach lx0 lx0
  | call {lx lx1 : Lexer} {fuel : Nat} {tok : Token} :
      Reach lx0 lx → scanToken fuel lx = .ok (tok, lx1) → Reach lx0 lx1

/-- The states reachable from `Lexer(source)`. -/
def Reachable (source : List Char) (lx : Lexer) : Prop := Reach (Lexer.new source) lx

/-- The 31 keyword spellings of the specification, each with its kind. -/
def keywordTable : List (String × TokenKind) :=
  [("var", .VarKw), ("val", .ValKw), ("fn", .FnKw), ("struct", .StructKw),
   ("union", .UnionKw), ("enum", .EnumKw), ("trait", .TraitKw), ("if", .IfKw),
   ("else", .ElseKw), ("is", .IsKw), ("then", .ThenKw), ("while", .WhileKw),
   ("for", .ForKw), ("in", .InKw), ("do", .DoKw), ("loop", .LoopKw),
   ("return", .ReturnKw), ("defer", .DeferKw), ("catch", .CatchKw), ("true", .TrueKw),
   ("false", .FalseKw), ("null", .NullKw), ("and", .AndKw), ("or", .OrKw),
   ("not", .NotKw), ("xor", .XorKw), ("nor", .NorKw), ("import", .ImportKw),
   ("from", .FromKw), ("as", .AsKw), ("all", .AllKw)]

/-- The two-character operators of the specification, in its order:
`..`, `::`, `<-`, `->`, `=>`, `**`, `>=`, `<=`, `==`, `+=`, `-=`, `*=`, `/=`, `%=`. -/
def twoCharOperators : List String :=
  ["..", "::", "<-", "->", "=>", "**", ">=", "<=", "==", "+=", "-=", "*=", "/=", "%="]

/-- The kind that the last part of `scanToken` derives from one character `c`
alone: the case of the switch that `c` selects, else `Number` for a digit, else
`Unknown`. -/
def classifySecond (c : Char) : TokenKind :=
  match switchKind c with
  | some kind => kind
  | none => if isdigit c.toNat then .Number else .Unknown

/-- The kinds that only the block guarded by `std::isalpha(current)` names:
`Identifier`, `StringLiteral`, `ErrorToken` and the keyword kinds. -/
def blockKinds : List TokenKind :=
  [.Identifier, .StringLiteral, .ErrorToken] ++ keywordTable.map Prod.snd

/-! ## Lemmas on the helpers -/

theorem incLine_is_at_end (lx : Lexer) : lx.incLine.is_at_end = lx.is_at_end := rfl

theorem incLine_peek (lx : Lexer) : lx.incLine.peek = lx.peek := rfl

theorem incLine_advance (lx : Lexer) (n : Nat) : lx.incLine.advance n = lx.advance n := rfl

/-- The whitespace loop returns only when it makes no iteration: the state it
returns is the state it was given, which is at the end or before a character
that is not whitespace. -/
theorem skipWhitespace_ok {fuel : Nat} {lx lx1 : Lexer}
    (h : skipWhitespace fuel lx = .ok lx1) :
    lx1 = lx ∧ (lx.is_at_end = true ∨
      ∃ c, lx.peek = .ok c ∧ c ≠ ' ' ∧ c ≠ '\r' ∧ c ≠ '\t' ∧ c ≠ '\n') := by
  induction fuel generalizing lx lx1 with
  | zero => simp [skipWhitespace] at h
  | succ n ih =>
    unfold skipWhitespace at h
    split at h
    · rename_i hend
      simp at h
      exact ⟨h.symm, Or.inl hend⟩
    · rename_i hend
      split at h
      · simp at h
      · rename_i c hc
        split at h
        · rename_i hws
          split at h
          · simp at h
          · rcases (ih h).2 with he | ⟨d, hd, h1, h2, h3, _⟩
            · exact absurd he hend
            · rw [hc] at hd
              cases hd
              tauto
        · rename_i hws
          split at h
          · rename_i hnl
            split at h
            · simp at h
            · rcases (ih h).2 with he | ⟨d, hd, _, _, _, h4⟩
              · rw [incLine_is_at_end] at he
                exact absurd he hend
              · rw [incLine_peek, hc] at hd
                cases hd
                exact absurd hnl h4
          · rename_i hnl
            simp at h
            refine ⟨h.symm, Or.inr ⟨c, hc, ?_, ?_, ?_, hnl⟩⟩ <;> tauto

/-- A returned `emit` hands back the state it was called on. -/
theorem emit_ok {lx lx1 : Lexer} {kind : TokenKind} {tok : Token}
    (h : lx.emit kind = .ok (tok, lx1)) :
    lx1 = lx ∧ tok.kind = kind ∧ tok.line = lx.line ∧ lx.make_token kind = .ok tok := by
  unfold Lexer.emit at h
  split at h
  · rename_i t ht
    simp at h
    obtain ⟨rfl, rfl⟩ := h
    refine ⟨rfl, ?_, ?_, ht⟩
    · unfold Lexer.make_token at ht
      split at ht
      · simp at ht; rw [← ht]
      · simp at ht
    · unfold Lexer.make_token at ht
      split at ht
      · simp at ht; rw [← ht]
      · simp at ht
  · simp at h

theorem lookup_mem_snd {α β : Type} [BEq α] {a : α} {b : β} {l : List (α × β)}
    (h : l.lookup a = some b) : b ∈ l.map Prod.snd := by
  induction l with
  | nil => simp [List.lookup] at h
  | cons p l ih =>
    obtain ⟨x, y⟩ := p
    unfold List.lookup at h
    split at h
    · simp at h
      simp [h]
    · simp [ih h]

/-- The switch never yields the kinds that only other statements produce. -/
theorem switchKind_ne {c : Char} {kind : TokenKind} (h : switchKind c = some kind) :
    kind ≠ .EOFToken ∧ kind ≠ .Identifier ∧ kind ≠ .Number ∧ kind ≠ .Unknown := by
  have hm := lookup_mem_snd h
  have hall : ∀ k ∈ switchTable.map Prod.snd,
      k ≠ TokenKind.EOFToken ∧ k ≠ .Identifier ∧ k ≠ .Number ∧ k ≠ .Unknown := by decide
  exact hall kind hm

/-- What a call of the last part of `scanToken` that returns has done. -/
theorem scanSymbol_ok {fuel : Nat} {lx lx1 : Lexer} {tok : Token}
    (h : scanSymbol fuel lx = .ok (tok, lx1)) :
    lx1 = lx ∧ tok.line = lx.line ∧ lx.make_token tok.kind = .ok tok ∧
      ∃ c, lx.advance 1 = .ok c ∧
        (switchKind c = some tok.kind ∨
         (switchKind c = none ∧ isdigit c.toNat = true ∧ tok.kind = .Number) ∨
         (switchKind c = none ∧ isdigit c.toNat = false ∧ tok.kind = .Unknown)) := by
  unfold scanSymbol at h
  split at h
  · simp at h
  · rename_i c hc
    split at h
    · rename_i kind hk
      split at h
      · simp at h
      · obtain ⟨h1, h2, h3, h4⟩ := emit_ok h
        subst h2
        exact ⟨h1, h3, h4, c, hc, Or.inl hk⟩
    · rename_i hk
      split at h
      · rename_i hd
        split at h
        · simp at h
        · obtain ⟨h1, h2, h3, h4⟩ := emit_ok h
          rw [← h2] at h4
          exact ⟨h1, h3, h4, c, hc, Or.inr (Or.inl ⟨hk, hd, h2⟩)⟩
      · rename_i hd
        obtain ⟨h1, h2, h3, h4⟩ := emit_ok h
        rw [← h2] at h4
        exact ⟨h1, h3, h4, c, hc, Or.inr (Or.inr ⟨hk, by simpa using hd, h2⟩)⟩

/-- What a call of `scanToken` that returns has done: the state is the one it
was called on, and the token is the end-of-input token, the identifier token of
the branch guarded by `isalpha(current)`, or a token of the last part. -/
theorem scanToken_ok {fuel : Nat} {lx lx1 : Lexer} {tok : Token}
    (h : scanToken fuel lx = .ok (tok, lx1)) :
    lx1 = lx ∧ tok.line = lx.line ∧ lx.make_token tok.kind = .ok tok ∧
      ((lx.is_at_end = true ∧ tok.kind = .EOFToken) ∨
       (lx.is_at_end = false ∧ isalpha lx.current = true ∧ tok.kind = .Identifier) ∨
       (lx.is_at_end = false ∧ isalpha lx.current = false ∧
          ∃ c, lx.advance 1 = .ok c ∧
            (switchKind c = some tok.kind ∨
             (switchKind c = none ∧ isdigit c.toNat = true ∧ tok.kind = .Number) ∨
             (switchKind c = none ∧ isdigit c.toNat = false ∧ tok.kind = .Unknown)))) := by
  unfold scanToken at h
  split at h
  · simp at h
  · rename_i lx2 hws
    obtain ⟨rfl, -⟩ := skipWhitespace_ok hws
    split at h
    · rename_i hend
      obtain ⟨h1, h2, h3, h4⟩ := emit_ok h
      rw [← h2] at h4
      exact ⟨h1, h3, h4, Or.inl ⟨hend, h2⟩⟩
    · rename_i hend
      split at h
      · rename_i halpha
        unfold keywordBlock at h
        rw [if_pos halpha] at h
        split at h
        · simp at h
        · obtain ⟨h1, h2, h3, h4⟩ := emit_ok h
          rw [← h2] at h4
          exact ⟨h1, h3, h4, Or.inr (Or.inl ⟨by simpa using hend, halpha, h2⟩)⟩
      · rename_i halpha
        obtain ⟨h1, h2, h3, h4⟩ := scanSymbol_ok h
        exact ⟨h1, h2, h3, Or.inr (Or.inr ⟨by simpa using hend, by simpa using halpha, h4⟩)⟩

/-- At the end of the input a call with any fuel left returns the end-of-input token. -/
theorem scanToken_at_end {lx : Lexer} (hend : lx.is_at_end = true) (fuel : Nat) :
    scanToken (fuel + 1) lx = lx.emit .EOFToken := by
  simp [scanToken, skipWhitespace, hend]

/-- Calls that return never change the state. -/
theorem reach_eq {lx0 lx : Lexer} (h : Reach lx0 lx) : lx = lx0 := by
  induction h with
  | refl => rfl
  | call _ hcall ih => rw [← ih]; exact (scanToken_ok hcall).1

/-- In the state `Lexer(source)` every token of `make_token` has an empty lexeme. -/
theorem make_token_new {source : List Char} {kind : TokenKind} {tok : Token}
    (h : (Lexer.new source).make_token kind = .ok tok) : tok.lexeme = [] := by
  simp [Lexer.make_token, Lexer.new, substr, sizeModulus] at h
  rw [← h]

/-- The whitespace loop never ends once it has passed over a space, tab or
carriage return: the next test finds the same character. -/
theorem skipWhitespace_stuck (lx : Lexer) (c d : Char) (hend : lx.is_at_end = false)
    (hp : lx.peek = .ok c) (hc : c = ' ' ∨ c = '\r' ∨ c = '\t')
    (ha : lx.advance 1 = .ok d) (fuel : Nat) :
    skipWhitespace fuel lx = .error .outOfFuel := by
  induction fuel with
  | zero => rfl
  | succ n ih => simp [skipWhitespace, hend, hp, hc, ha, ih]

/-- The digit loop never ends once it has passed over a digit. -/
theorem digitLoop_stuck (lx : Lexer) (c d : Char) (hp : lx.peek = .ok c)
    (hc : isdigit c.toNat = true) (ha : lx.advance 1 = .ok d) (fuel : Nat) :
    digitLoop fuel lx = .error .outOfFuel := by
  induction fuel with
  | zero => rfl
  | succ n ih => simp [digitLoop, hp, hc, ha, ih]

/-- The whitespace loop never ends once it has passed over a line feed: it
counts the line and finds the same character again. -/
theorem skipWhitespace_stuck_newline (d : Char) (lx : Lexer) (hend : lx.is_at_end = false)
    (hp : lx.peek = .ok '\n') (ha : lx.advance 1 = .ok d) (fuel : Nat) :
    skipWhitespace fuel lx = .error .outOfFuel := by
  induction fuel generalizing lx with
  | zero => rfl
  | succ n ih =>
    have h := ih lx.incLine (by rw [incLine_is_at_end, hend]) (by rw [incLine_peek, hp])
      (by rw [incLine_advance, ha])
    unfold skipWhitespace
    rw [hend, hp]
    have hne : ¬ ('\n' = ' ' ∨ '\n' = '\r' ∨ '\n' = '\t') := by decide
    simp only [Bool.false_eq_true, if_false, incLine_advance, ha, h, if_neg hne, if_true]

/-- The switch never yields the kinds of the three branches inside the block. -/
theorem switchKind_ne_dead {c : Char} {kind : TokenKind} (h : switchKind c = some kind) :
    kind ≠ .TripleDot ∧ kind ≠ .PowAssign ∧ kind ≠ .Newline := by
  have hm := lookup_mem_snd h
  have hall : ∀ k ∈ switchTable.map Prod.snd,
      k ≠ TokenKind.TripleDot ∧ k ≠ .PowAssign ∧ k ≠ .Newline := by decide
  exact hall kind hm

/-- In the state `Lexer(source)` the statement `return make_token(kind);` returns
the token with an empty lexeme and line 1, and the same state. -/
theorem emit_new (source : List Char) (kind : TokenKind) :
    (Lexer.new source).emit kind = .ok (⟨kind, [], 1⟩, Lexer.new source) := by
  simp [Lexer.emit, Lexer.make_token, Lexer.new, substr, sizeModulus]

/-- The whitespace loop of the first call over a source of two characters or more
that starts with a character that is not whitespace makes no iteration. -/
theorem skipWhitespace_new (c0 c1 : Char) (rest : List Char) (fuel : Nat)
    (hws : c0 ≠ ' ' ∧ c0 ≠ '\t' ∧ c0 ≠ '\r' ∧ c0 ≠ '\n') :
    skipWhitespace (fuel + 1) (Lexer.new (c0 :: c1 :: rest)) =
      .ok (Lexer.new (c0 :: c1 :: rest)) := by
  have hend : (Lexer.new (c0 :: c1 :: rest)).is_at_end = false := by
    simp [Lexer.is_at_end, Lexer.new]
  have hpeek : (Lexer.new (c0 :: c1 :: rest)).peek = .ok c0 := by
    simp [Lexer.peek, Lexer.is_at_end, Lexer.new, readAt]
  have h1 : ¬ (c0 = ' ' ∨ c0 = '\r' ∨ c0 = '\t') := by tauto
  unfold skipWhitespace
  simp only [hend, hpeek, if_neg h1, if_neg hws.2.2.2, Bool.false_eq_true, if_false]

/-- No call of `scanToken` that returns yields one of the kinds `TripleDot`,
`PowAssign`, `Newline`, whatever the state it is called on. -/
theorem scanToken_kind_not_dead {fuel : Nat} {lx lx1 : Lexer} {tok : Token}
    (h : scanToken fuel lx = .ok (tok, lx1)) :
    tok.kind ≠ .TripleDot ∧ tok.kind ≠ .PowAssign ∧ tok.kind ≠ .Newline := by
  obtain ⟨-, -, -, hcases⟩ := scanToken_ok h
  rcases hcases with ⟨-, hk⟩ | ⟨-, -, hk⟩ | ⟨-, -, c, -, hk | ⟨-, -, hk⟩ | ⟨-, -, hk⟩⟩
  · rw [hk]; decide
  · rw [hk]; decide
  · exact switchKind_ne_dead hk
  · rw [hk]; decide
  · rw [hk]; decide

/-- Every token that the caller `scanTokens` collects was returned by a call of
`scanToken`. -/
theorem scanTokens_mem {fuel n : Nat} {lx lx1 : Lexer} {toks : List Token}
    (h : scanTokens fuel n lx = .ok (toks, lx1)) :
    ∀ t ∈ toks, ∃ la lb, scanToken fuel la = .ok (t, lb) := by
  induction n generalizing lx lx1 toks with
  | zero =>
    simp [scanTokens] at h
    intro t ht
    rw [h.1] at ht
    cases ht
  | succ n ih =>
    unfold scanTokens at h
    split at h
    · simp at h
    · rename_i t0 lx2 h0
      split at h
      · simp at h
      · rename_i ts lx3 hrest
        simp at h
        intro t ht
        rw [← h.1] at ht
        rcases List.mem_cons.mp ht with rfl | hmem
        · exact ⟨lx, lx2, h0⟩
        · exact ih hrest t hmem

/-- Two calls of `scanToken` on the same state that both return yield the same
token, whatever fuel each is given. -/
theorem scanToken_deterministic {fuel1 fuel2 : Nat} {lx lx1 lx2 : Lexer} {tok1 tok2 : Token}
    (h1 : scanToken fuel1 lx = .ok (tok1, lx1)) (h2 : scanToken fuel2 lx = .ok (tok2, lx2)) :
    tok2 = tok1 := by
  obtain ⟨-, -, hm1, hc1⟩ := scanToken_ok h1
  obtain ⟨-, -, hm2, hc2⟩ := scanToken_ok h2
  have hk : tok2.kind = tok1.kind := by
    rcases hc1 with ⟨e1, k1⟩ | ⟨e1, a1, k1⟩ | ⟨e1, a1, c1, r1, k1 | ⟨s1, d1, k1⟩ | ⟨s1, d1, k1⟩⟩ <;>
    rcases hc2 with ⟨e2, k2⟩ | ⟨e2, a2, k2⟩ | ⟨e2, a2, c2, r2, k2 | ⟨s2, d2, k2⟩ | ⟨s2, d2, k2⟩⟩ <;>
    simp_all
  rw [hk, hm1] at hm2
  injection hm2 with hm2
  exact hm2.symm

/-! ## The claims -/

/-- C1 (progress), evaluated at the source `a(`: the cursor is before the end of
the source, the call returns the token `LParen`, and the cursor is where it was
before the call, so it has not become strictly greater. -/
theorem scanToken_no_progress (fuel : Nat) :
    ∃ tok lx1, scanToken (fuel + 1) (Lexer.new "a(".toList) = .ok (tok, lx1) ∧
      tok.kind = .LParen ∧
      (Lexer.new "a(".toList).current < (Lexer.new "a(".toList).source.length ∧
      lx1.current = (Lexer.new "a(".toList).current :=
  ⟨⟨.LParen, [], 1⟩, Lexer.new "a(".toList, rfl, rfl, by decide, rfl⟩

/-- C2 (totality), evaluated at three sources: on ` x` and on `12` the first
call runs out of every amount of fuel (the whitespace loop, respectively the
digit loop, never ends), and on a single line feed it reads index 1 of a
buffer of length 1. -/
theorem scanToken_not_total :
    (∀ fuel, scanToken fuel (Lexer.new " x".toList) = .error .outOfFuel) ∧
    (∀ fuel, scanToken fuel (Lexer.new "12".toList) = .error .outOfFuel) ∧
    (∀ fuel, scanToken (fuel + 1) (Lexer.new "\n".toList) = .error (.outOfBounds 1)) := by
  refine ⟨?_, ?_, ?_⟩
  · intro fuel
    have h := skipWhitespace_stuck (Lexer.new " x".toList) ' ' 'x'
      rfl rfl (Or.inl rfl) rfl fuel
    unfold scanToken
    rw [h]
  · intro fuel
    cases fuel with
    | zero => rfl
    | succ n =>
      have h := digitLoop_stuck (Lexer.new "12".toList) '1' '2'
        rfl rfl rfl (n + 1)
      have hws : skipWhitespace (n + 1) (Lexer.new "12".toList) = .ok (Lexer.new "12".toList) :=
        rfl
      have hadv : (Lexer.new "12".toList).advance 1 = .ok '2' := rfl
      have hsw : switchKind '2' = none := rfl
      have hend : (Lexer.new "12".toList).is_at_end = false := rfl
      have halpha : isalpha (Lexer.new "12".toList).current = false := rfl
      have hdig : isdigit ('2').toNat = true := rfl
      simp only [scanToken, hws, hend, halpha, scanSymbol, hadv, hsw, hdig, h]
      simp
  · intro fuel
    rfl

/-- C3 (idempotent end of input): if a call on a state reachable from
`Lexer(source)` returns a token of kind `EOFToken`, then on every state reached
later every call with fuel left returns a token of kind `EOFToken` with an empty
lexeme and the line of that first token. -/
theorem eof_idempotent (source : List Char) (lx lx1 lx2 : Lexer) (fuel : Nat) (tok : Token)
    (hreach : Reachable source lx) (hcall : scanToken fuel lx = .ok (tok, lx1))
    (hkind : tok.kind = .EOFToken) (hlater : Reach lx1 lx2) (fuel2 : Nat) :
    ∃ tok2 lx3, scanToken (fuel2 + 1) lx2 = .ok (tok2, lx3) ∧
      tok2.kind = .EOFToken ∧ tok2.lexeme = [] ∧ tok2.line = tok.line := by
  have h0 : lx = Lexer.new source := reach_eq hreach
  obtain ⟨h1, -, hmk, hcases⟩ := scanToken_ok hcall
  have h2 : lx2 = lx := by rw [reach_eq hlater, h1]
  have hend : lx.is_at_end = true := by
    rcases hcases with ⟨he, -⟩ | ⟨-, -, hk⟩ | ⟨-, -, c, -, hk | ⟨-, -, hk⟩ | ⟨-, -, hk⟩⟩
    · exact he
    · rw [hkind] at hk; cases hk
    · rw [hkind] at hk; exact absurd rfl (switchKind_ne hk).1
    · rw [hkind] at hk; cases hk
    · rw [hkind] at hk; cases hk
  refine ⟨tok, lx, ?_, hkind, ?_, rfl⟩
  · rw [h2, scanToken_at_end hend, Lexer.emit, ← hkind, hmk]
  · rw [h0] at hmk
    exact make_token_new hmk

/-- C3 at the empty source: the first call returns `EOFToken` at line 1, and so
does a later call. -/
theorem eof_idempotent_witness :
    ∃ tok2 lx3, scanToken 1 (Lexer.new []) = .ok (tok2, lx3) ∧
      tok2.kind = .EOFToken ∧ tok2.lexeme = [] ∧ tok2.line = 1 :=
  eof_idempotent [] (Lexer.new []) (Lexer.new []) (Lexer.new []) 1 ⟨.EOFToken, [], 1⟩
    Reach.refl rfl rfl Reach.refl 0

/-- C4 (coverage), evaluated at the source `a(`, which has no double quote: any
number `n` of successive calls returns `n` tokens of kind `LParen` with an empty
lexeme, so no call returns `EOFToken` and the lexemes never add up to the source. -/
theorem scanTokens_never_eof (fuel n : Nat) :
    scanTokens (fuel + 1) n (Lexer.new "a(".toList) =
      .ok (List.replicate n ⟨.LParen, [], 1⟩, Lexer.new "a(".toList) := by
  induction n with
  | zero => rfl
  | succ n ih =>
    have h : scanToken (fuel + 1) (Lexer.new "a(".toList) =
        .ok (⟨.LParen, [], 1⟩, Lexer.new "a(".toList) := rfl
    unfold scanTokens
    rw [h]
    simp only []
    rw [ih, List.replicate_succ]

/-- C5 (keywords), evaluated at each of the 31 spellings: the first call on a
source that is exactly the spelling returns a token of kind `Unknown` with an
empty lexeme, not the keyword kind with the spelling as lexeme. -/
theorem keyword_gives_unknown (fuel : Nat) (p : String × TokenKind) (hp : p ∈ keywordTable) :
    scanToken (fuel + 1) (Lexer.new p.1.toList) =
      .ok (⟨.Unknown, [], 1⟩, Lexer.new p.1.toList) := by
  simp only [keywordTable, List.mem_cons, List.mem_singleton, List.not_mem_nil, or_false] at hp
  rcases hp with h | h | h | h | h | h | h | h | h | h | h | h | h | h | h | h | h | h | h |
    h | h | h | h | h | h | h | h | h | h | h | h <;> subst h <;> rfl

/-- C5 at the spelling `var`. -/
theorem keyword_gives_unknown_witness :
    scanToken 1 (Lexer.new "var".toList) = .ok (⟨.Unknown, [], 1⟩, Lexer.new "var".toList) :=
  keyword_gives_unknown 0 ("var", .VarKw) (by simp [keywordTable])

/-- C6 (identifier maximal munch), evaluated at the sources `ifx` and `in2`:
the first call returns a token of kind `Unknown` with an empty lexeme and leaves
the cursor at 0, not the token `Identifier` with the whole word as lexeme. -/
theorem identifier_gives_unknown (fuel : Nat) :
    scanToken (fuel + 1) (Lexer.new "ifx".toList) =
        .ok (⟨.Unknown, [], 1⟩, Lexer.new "ifx".toList) ∧
    scanToken (fuel + 1) (Lexer.new "in2".toList) =
        .ok (⟨.Unknown, [], 1⟩, Lexer.new "in2".toList) :=
  ⟨rfl, rfl⟩

/-- C7 (numeric literal), evaluated at the sources `1a` and `10`: on `1a` the
first call returns a token of kind `Unknown` with an empty lexeme and leaves the
cursor at 0; on `10` it runs out of every amount of fuel. Neither returns the
token `Number` with the digits as lexeme. -/
theorem number_not_scanned :
    (∀ fuel, scanToken (fuel + 1) (Lexer.new "1a".toList) =
        .ok (⟨.Unknown, [], 1⟩, Lexer.new "1a".toList)) ∧
    (∀ fuel, scanToken fuel (Lexer.new "10".toList) = .error .outOfFuel) := by
  refine ⟨fun _ => rfl, ?_⟩
  intro fuel
  cases fuel with
  | zero => rfl
  | succ n =>
    have h := digitLoop_stuck (Lexer.new "10".toList) '1' '0'
      rfl rfl rfl (n + 1)
    have hws : skipWhitespace (n + 1) (Lexer.new "10".toList) = .ok (Lexer.new "10".toList) :=
      rfl
    have hadv : (Lexer.new "10".toList).advance 1 = .ok '0' := rfl
    have hsw : switchKind '0' = none := rfl
    have hend : (Lexer.new "10".toList).is_at_end = false := rfl
    have halpha : isalpha (Lexer.new "10".toList).current = false := rfl
    have hdig : isdigit ('0').toNat = true := rfl
    simp only [scanToken, hws, hend, halpha, scanSymbol, hadv, hsw, hdig, h]
    simp

/-- C8 (two-character operators), evaluated at each operator: the first call on a
source that is exactly the operator returns the single-character token of the
operator's second character, with an empty lexeme; for `>=` that is `Assign`,
not `GreaterThanEqual`. -/
theorem two_char_operators_second_char (fuel : Nat) :
    twoCharOperators.map (fun s => scanToken (fuel + 1) (Lexer.new s.toList)) =
      [.ok (⟨.Dot, [], 1⟩, Lexer.new "..".toList),
       .ok (⟨.Colon, [], 1⟩, Lexer.new "::".toList),
       .ok (⟨.Minus, [], 1⟩, Lexer.new "<-".toList),
       .ok (⟨.GreaterThan, [], 1⟩, Lexer.new "->".toList),
       .ok (⟨.GreaterThan, [], 1⟩, Lexer.new "=>".toList),
       .ok (⟨.Mul, [], 1⟩, Lexer.new "**".toList),
       .ok (⟨.Assign, [], 1⟩, Lexer.new ">=".toList),
       .ok (⟨.Assign, [], 1⟩, Lexer.new "<=".toList),
       .ok (⟨.Assign, [], 1⟩, Lexer.new "==".toList),
       .ok (⟨.Assign, [], 1⟩, Lexer.new "+=".toList),
       .ok (⟨.Assign, [], 1⟩, Lexer.new "-=".toList),
       .ok (⟨.Assign, [], 1⟩, Lexer.new "*=".toList),
       .ok (⟨.Assign, [], 1⟩, Lexer.new "/=".toList),
       .ok (⟨.Assign, [], 1⟩, Lexer.new "%=".toList)] :=
  rfl

/-- C9 (three-character operators), evaluated at `...` and `**=`: the first call
returns `Dot`, respectively `Mul`, each with an empty lexeme, not `TripleDot`
and `PowAssign` with the three characters as lexeme. -/
theorem three_char_operators_second_char (fuel : Nat) :
    scanToken (fuel + 1) (Lexer.new "...".toList) =
        .ok (⟨.Dot, [], 1⟩, Lexer.new "...".toList) ∧
    scanToken (fuel + 1) (Lexer.new "**=".toList) =
        .ok (⟨.Mul, [], 1⟩, Lexer.new "**=".toList) :=
  ⟨rfl, rfl⟩

/-- C10 (single-character symbols), for every one-character source, in
particular each symbol of the switch: the first call returns no token, it reads
index 1 of the buffer of length 1. -/
theorem single_char_reads_past_end (c : Char) (fuel : Nat) :
    scanToken (fuel + 1) (Lexer.new [c]) = .error (.outOfBounds 1) := by
  have hend : (Lexer.new [c]).is_at_end = false := rfl
  have hpeek : (Lexer.new [c]).peek = .ok c := rfl
  have hadv : (Lexer.new [c]).advance 1 = .error (.outOfBounds 1) := rfl
  have hadv2 : (Lexer.new [c]).incLine.advance 1 = .error (.outOfBounds 1) := rfl
  have halpha : isalpha (Lexer.new [c]).current = false := rfl
  by_cases hws : c = ' ' ∨ c = '\r' ∨ c = '\t'
  · have h : skipWhitespace (fuel + 1) (Lexer.new [c]) = .error (.outOfBounds 1) := by
      unfold skipWhitespace
      simp only [hend, hpeek, hadv, if_pos hws, Bool.false_eq_true, if_false]
    unfold scanToken
    rw [h]
  · by_cases hnl : c = '\n'
    · have h : skipWhitespace (fuel + 1) (Lexer.new [c]) = .error (.outOfBounds 1) := by
        unfold skipWhitespace
        simp only [hend, hpeek, hadv2, if_neg hws, if_pos hnl, Bool.false_eq_true, if_false]
      unfold scanToken
      rw [h]
    · have h : skipWhitespace (fuel + 1) (Lexer.new [c]) = .ok (Lexer.new [c]) := by
        unfold skipWhitespace
        simp only [hend, hpeek, if_neg hws, if_neg hnl, Bool.false_eq_true, if_false]
      unfold scanToken
      rw [h]
      simp only [hend, halpha, Bool.false_eq_true, if_false]
      unfold scanSymbol
      rw [hadv]

/-- C11 (unknown character), evaluated at three sources. On `a $ b` any number
`n` of successive calls returns `n` tokens of kind `Unknown` with an empty
lexeme, not `Identifier`, `Unknown`, `Identifier`, `EOFToken`. On `$x` the first
call returns `Unknown` with an empty lexeme and leaves the cursor at 0; on `$(`
it returns `LParen`. -/
theorem unknown_char_not_isolated (fuel : Nat) :
    (∀ n, scanTokens (fuel + 1) n (Lexer.new "a $ b".toList) =
        .ok (List.replicate n ⟨.Unknown, [], 1⟩, Lexer.new "a $ b".toList)) ∧
    scanToken (fuel + 1) (Lexer.new "$x".toList) =
        .ok (⟨.Unknown, [], 1⟩, Lexer.new "$x".toList) ∧
    scanToken (fuel + 1) (Lexer.new "$(".toList) =
        .ok (⟨.LParen, [], 1⟩, Lexer.new "$(".toList) := by
  refine ⟨?_, rfl, rfl⟩
  intro n
  induction n with
  | zero => rfl
  | succ n ih =>
    have h : scanToken (fuel + 1) (Lexer.new "a $ b".toList) =
        .ok (⟨.Unknown, [], 1⟩, Lexer.new "a $ b".toList) := rfl
    unfold scanTokens
    rw [h]
    simp only []
    rw [ih, List.replicate_succ]

/-- C12 (unterminated string), evaluated at the source made of a double quote
followed by `abc`: the first call returns a token of kind `Unknown` with an
empty lexeme, not `ErrorToken` with the message. -/
theorem unterminated_string_gives_unknown (fuel : Nat) :
    scanToken (fuel + 1) (Lexer.new ('"' :: "abc".toList)) =
      .ok (⟨.Unknown, [], 1⟩, Lexer.new ('"' :: "abc".toList)) :=
  rfl

/-- C13 (terminated string), evaluated at the source `hi` between double quotes
and at the source of two double quotes: the first call returns `Unknown`,
respectively `DoubleQuote`, each with an empty lexeme and the cursor at 0, not
`StringLiteral` with the quoted text as lexeme. -/
theorem string_literal_not_scanned (fuel : Nat) :
    scanToken (fuel + 1) (Lexer.new ['"', 'h', 'i', '"']) =
        .ok (⟨.Unknown, [], 1⟩, Lexer.new ['"', 'h', 'i', '"']) ∧
    scanToken (fuel + 1) (Lexer.new ['"', '"']) =
        .ok (⟨.DoubleQuote, [], 1⟩, Lexer.new ['"', '"']) :=
  ⟨rfl, rfl⟩

/-- C14 (line counting through whitespace), evaluated at two sources: on two
line feeds followed by `x` the first call runs out of every amount of fuel, and
on a single line feed it reads index 1 of a buffer of length 1. Neither returns
a token with line 3, respectively `EOFToken` with line 2. -/
theorem leading_newlines_no_token :
    (∀ fuel, scanToken fuel (Lexer.new "\n\nx".toList) = .error .outOfFuel) ∧
    (∀ fuel, scanToken (fuel + 1) (Lexer.new "\n".toList) = .error (.outOfBounds 1)) := by
  refine ⟨?_, fun _ => rfl⟩
  intro fuel
  have h := skipWhitespace_stuck_newline '\n' (Lexer.new "\n\nx".toList) rfl rfl rfl fuel
  unfold scanToken
  rw [h]

/-- C15 (line monotonicity): of two calls on one `Lexer` over `source` that both
return, the later one returns a token whose line is at least the line of the
earlier one, and the line of a returned token is at least 1. -/
theorem line_monotone (source : List Char) (lx lx1 lx2 lx3 : Lexer) (fuel1 fuel2 : Nat)
    (tok1 tok2 : Token) (hreach : Reachable source lx)
    (hcall1 : scanToken fuel1 lx = .ok (tok1, lx1)) (hlater : Reach lx1 lx2)
    (hcall2 : scanToken fuel2 lx2 = .ok (tok2, lx3)) :
    tok1.line ≤ tok2.line ∧ 1 ≤ tok1.line := by
  have h0 : lx = Lexer.new source := reach_eq hreach
  obtain ⟨h1, hl1, -, -⟩ := scanToken_ok hcall1
  obtain ⟨-, hl2, -, -⟩ := scanToken_ok hcall2
  have h2 : lx2 = lx := by rw [reach_eq hlater, h1]
  rw [hl1, hl2, h2, h0]
  exact ⟨Nat.le_refl _, Nat.le_refl _⟩

/-- C15 at the source `a(`: two calls, both returning `LParen` at line 1. -/
theorem line_monotone_witness :
    scanToken 1 (Lexer.new "a(".toList) = .ok (⟨.LParen, [], 1⟩, Lexer.new "a(".toList) ∧
      (1 : Nat) ≤ 1 ∧ 1 ≤ (1 : Nat) :=
  ⟨rfl, line_monotone "a(".toList (Lexer.new "a(".toList) (Lexer.new "a(".toList)
    (Lexer.new "a(".toList) (Lexer.new "a(".toList) 1 1 ⟨.LParen, [], 1⟩ ⟨.LParen, [], 1⟩
    Reach.refl rfl Reach.refl rfl⟩

/-- C16 (no read past the buffer), evaluated at the sources `a` and `(` of length
1: in the state `Lexer(source)` the call `advance()` reads index 1, which is not
below the length, and so the first call of `scanToken` ends in that read. -/
theorem advance_reads_past_buffer (fuel : Nat) :
    (Lexer.new "a".toList).advance 1 = .error (.outOfBounds 1) ∧
    ¬ 1 < (Lexer.new "a".toList).source.length ∧
    scanToken (fuel + 1) (Lexer.new "a".toList) = .error (.outOfBounds 1) ∧
    scanToken (fuel + 1) (Lexer.new "(".toList) = .error (.outOfBounds 1) :=
  ⟨rfl, by decide, rfl, rfl⟩

/-- C17 (dead branches): for every source and every number `n` of successive
calls that all return, none of the tokens returned has kind `TripleDot`,
`PowAssign` or `Newline`. -/
theorem dead_kinds_never_returned (source : List Char) (fuel n : Nat) (toks : List Token)
    (lx1 : Lexer) (h : scanTokens fuel n (Lexer.new source) = .ok (toks, lx1)) :
    ∀ t ∈ toks, t.kind ≠ .TripleDot ∧ t.kind ≠ .PowAssign ∧ t.kind ≠ .Newline := by
  intro t ht
  obtain ⟨la, lb, hcall⟩ := scanTokens_mem h t ht
  exact scanToken_kind_not_dead hcall

/-- C17 at the source `...`: two calls return two tokens of kind `Dot`. -/
theorem dead_kinds_never_returned_witness :
    scanTokens 1 2 (Lexer.new "...".toList) =
        .ok ([⟨.Dot, [], 1⟩, ⟨.Dot, [], 1⟩], Lexer.new "...".toList) ∧
      ∀ t ∈ [(⟨.Dot, [], 1⟩ : Token), ⟨.Dot, [], 1⟩],
        t.kind ≠ .TripleDot ∧ t.kind ≠ .PowAssign ∧ t.kind ≠ .Newline :=
  ⟨rfl, dead_kinds_never_returned "...".toList 1 2 [⟨.Dot, [], 1⟩, ⟨.Dot, [], 1⟩]
    (Lexer.new "...".toList) rfl⟩

/-- C18 (stuttering): a call of `scanToken` that returns leaves the state
(source, `start`, `current`, `line`) exactly as it was, and a later call on the
same `Lexer` that returns yields the same token (kind, lexeme and line). -/
theorem scanToken_stutters (lx lx1 lx2 lx3 : Lexer) (fuel1 fuel2 : Nat) (tok1 tok2 : Token)
    (hcall1 : scanToken fuel1 lx = .ok (tok1, lx1)) (hlater : Reach lx1 lx2)
    (hcall2 : scanToken fuel2 lx2 = .ok (tok2, lx3)) :
    lx1 = lx ∧ lx3 = lx2 ∧ tok2 = tok1 := by
  have h1 : lx1 = lx := (scanToken_ok hcall1).1
  have h3 : lx3 = lx2 := (scanToken_ok hcall2).1
  have h2 : lx2 = lx := by rw [reach_eq hlater, h1]
  refine ⟨h1, h3, ?_⟩
  rw [h2] at hcall2
  exact scanToken_deterministic hcall1 hcall2

/-- C18 at the source `ifx`: a call with fuel 1 and a later call with fuel 2 both
return `Unknown` with an empty lexeme at line 1 and leave the state as it was. -/
theorem scanToken_stutters_witness :
    scanToken 1 (Lexer.new "ifx".toList) = .ok (⟨.Unknown, [], 1⟩, Lexer.new "ifx".toList) ∧
    scanToken 2 (Lexer.new "ifx".toList) = .ok (⟨.Unknown, [], 1⟩, Lexer.new "ifx".toList) ∧
    (Lexer.new "ifx".toList = Lexer.new "ifx".toList ∧
      Lexer.new "ifx".toList = Lexer.new "ifx".toList ∧
      (⟨.Unknown, [], 1⟩ : Token) = ⟨.Unknown, [], 1⟩) :=
  ⟨rfl, rfl, scanToken_stutters (Lexer.new "ifx".toList) (Lexer.new "ifx".toList)
    (Lexer.new "ifx".toList) (Lexer.new "ifx".toList) 1 2 ⟨.Unknown, [], 1⟩ ⟨.Unknown, [], 1⟩
    rfl Reach.refl rfl⟩

/-- C19 (classification by the second character): on a source of two characters
or more whose first character is not space, tab, carriage return or line feed
and whose first two characters are not both digits, the first call with any fuel
returns the token whose kind is `classifySecond` of the character at index 1,
with an empty lexeme and line 1, and leaves the state as it was; that kind is
none of `Identifier`, `StringLiteral`, `ErrorToken` or a keyword kind. -/
theorem second_char_classification (c0 c1 : Char) (rest : List Char) (fuel : Nat)
    (hws : c0 ≠ ' ' ∧ c0 ≠ '\t' ∧ c0 ≠ '\r' ∧ c0 ≠ '\n')
    (hdig : ¬ (isdigit c0.toNat = true ∧ isdigit c1.toNat = true)) :
    scanToken (fuel + 1) (Lexer.new (c0 :: c1 :: rest)) =
        .ok (⟨classifySecond c1, [], 1⟩, Lexer.new (c0 :: c1 :: rest)) ∧
      classifySecond c1 ∉ blockKinds := by
  have hend : (Lexer.new (c0 :: c1 :: rest)).is_at_end = false := by
    simp [Lexer.is_at_end, Lexer.new]
  have hpeek : (Lexer.new (c0 :: c1 :: rest)).peek = .ok c0 := by
    simp [Lexer.peek, Lexer.is_at_end, Lexer.new, readAt]
  have hadv : (Lexer.new (c0 :: c1 :: rest)).advance 1 = .ok c1 := by
    simp [Lexer.advance, Lexer.new, readAt, sizeModulus]
  have halpha : isalpha (Lexer.new (c0 :: c1 :: rest)).current = false := rfl
  constructor
  · unfold scanToken
    rw [skipWhitespace_new c0 c1 rest fuel hws]
    simp only [hend, halpha, Bool.false_eq_true, if_false]
    unfold scanSymbol classifySecond
    rw [hadv]
    simp only []
    cases hsk : switchKind c1 with
    | some kind => simp only [emit_new]
    | none =>
      by_cases hd : isdigit c1.toNat = true
      · have hd0 : ¬ (isdigit c0.toNat = true) := fun h0 => hdig ⟨h0, hd⟩
        have hloop : digitLoop (fuel + 1) (Lexer.new (c0 :: c1 :: rest)) = .ok () := by
          unfold digitLoop
          simp only [hpeek, if_neg hd0]
        simp only [hd, if_true, hloop, emit_new]
      · simp only [if_neg hd, emit_new]
  · unfold classifySecond
    cases hsk : switchKind c1 with
    | some kind =>
      have hall : ∀ k ∈ switchTable.map Prod.snd, k ∉ blockKinds := by decide
      exact hall kind (lookup_mem_snd hsk)
    | none =>
      by_cases hd : isdigit c1.toNat = true
      · simp only [hd, if_true]; decide
      · simp only [if_neg hd]; decide

/-- C19 at the source `a(`: the first call returns `LParen`. -/
theorem second_char_classification_witness :
    scanToken 1 (Lexer.new ['a', '(']) = .ok (⟨classifySecond '(', [], 1⟩, Lexer.new ['a', '(']) ∧
      classifySecond '(' ∉ blockKinds ∧ classifySecond '(' = .LParen :=
  ⟨(second_char_classification 'a' '(' [] 0 (by decide) (by decide)).1,
    (second_char_classification 'a' '(' [] 0 (by decide) (by decide)).2, rfl⟩

/-- C20 (empty lexeme): every call of `scanToken` that returns, on any state
reachable from `Lexer(source)`, returns a token whose lexeme is empty. -/
theorem lexeme_always_empty (source : List Char) (lx lx1 : Lexer) (fuel : Nat) (tok : Token)
    (hreach : Reachable source lx) (hcall : scanToken fuel lx = .ok (tok, lx1)) :
    tok.lexeme = [] := by
  have h0 : lx = Lexer.new source := reach_eq hreach
  obtain ⟨-, -, hmk, -⟩ := scanToken_ok hcall
  rw [h0] at hmk
  exact make_token_new hmk

/-- C20 at the source `var`: the first call returns a token with an empty lexeme. -/
theorem lexeme_always_empty_witness :
    scanToken 1 (Lexer.new "var".toList) = .ok (⟨.Unknown, [], 1⟩, Lexer.new "var".toList) ∧
      (⟨.Unknown, [], 1⟩ : Token).lexeme = [] :=
  ⟨rfl, lexeme_always_empty "var".toList (Lexer.new "var".toList) (Lexer.new "var".toList) 1
    ⟨.Unknown, [], 1⟩ Reach.refl rfl⟩

end Anchor
